import Mathlib

/-!
Shallow embedding of the core of `main.go` from the
Alertmanager-Webhook-MQTT-Bridge repository: the severity reducer
(`highestSeverity`) and the state publisher (`publishState`), together with
the data model they operate on.  Go strings are modelled as Lean `String`s;
the ASCII behaviour of `strings.TrimSpace`, `strings.ToLower` and
`strings.ToUpper` is modelled explicitly on the character lists.
-/

/-- Whitespace as trimmed by Go's `strings.TrimSpace` (the ASCII/Latin-1
part of `unicode.IsSpace`): space, \t, \n, vertical tab, form feed, \r,
NEL and NBSP. -/
def goIsSpace (c : Char) : Bool :=
  c = ' ' || c = '\t' || c = '\n' || c = '\x0B' || c = '\x0C' || c = '\r' ||
  c = '\u0085' || c = '\u00A0'

/-- Go `strings.TrimSpace`: drop leading and trailing whitespace. -/
def goTrimSpace (s : String) : String :=
  ⟨((s.data.dropWhile goIsSpace).reverse.dropWhile goIsSpace).reverse⟩

/-- Go `strings.ToLower` on the ASCII range: `Char.toLower` maps exactly
the letters A-Z down by 32 and fixes everything else, which is Go's
`unicode.ToLower` restricted to ASCII. -/
def goToLower (s : String) : String := ⟨s.data.map Char.toLower⟩

/-- Go `strings.ToUpper` on the ASCII range: `Char.toUpper` maps exactly
the letters a-z up by 32 and fixes everything else, which is Go's
`unicode.ToUpper` restricted to ASCII. -/
def goToUpper (s : String) : String := ⟨s.data.map Char.toUpper⟩

/-- The `alert` struct of `main.go`: a status string and an optional
labels map (`nil` in Go is `none` here); the map is modelled as an
association list with unique keys, looked up first-match. -/
structure Alert where
  status : String
  labels : Option (List (String × String))
deriving DecidableEq, Repr

/-- Go map indexing `labels["severity"]`: the value of the first matching
key, or the zero value `""` when the key is absent. -/
def lookupLabel (ls : List (String × String)) (k : String) : String :=
  match ls.find? (fun p => p.1 == k) with
  | some p => p.2
  | none => ""

/-- The `severityRank` map of `main.go` as a partial lookup:
ok=0, info=1, warning=2, error=3, critical=4, anything else absent. -/
def severityRank? (s : String) : Option Nat :=
  if s = "ok" then some 0
  else if s = "info" then some 1
  else if s = "warning" then some 2
  else if s = "error" then some 3
  else if s = "critical" then some 4
  else none

/-- The severity string resolved for one alert inside the loop of
`highestSeverity`: default `"info"`; when the labels map is present and
the trimmed, lower-cased value under key `"severity"` is nonempty, that
value. -/
def resolveSeverity (a : Alert) : String :=
  match a.labels with
  | none => "info"
  | some ls =>
    let s := goToLower (goTrimSpace (lookupLabel ls "severity"))
    if s = "" then "info" else s

/-- The rank looked up in `severityRank` with the `!ok` fallback to
`severityRank["info"] = 1`. -/
def resolveRank (s : String) : Nat :=
  match severityRank? s with
  | some r => r
  | none => 1

/-- The mutable loop state of `highestSeverity`: the current best severity
string, its rank, and the active-alert counter. -/
structure LoopState where
  highest : String
  highestRank : Nat
  active : Nat
deriving DecidableEq, Repr

/-- One iteration of the loop body of `highestSeverity` in `main.go`:
skip non-firing alerts; otherwise count the alert, resolve its severity
and rank, and replace the current best exactly when the new rank is
strictly larger. -/
def step (acc : LoopState) (a : Alert) : LoopState :=
  if a.status = "firing" then
    let severity := resolveSeverity a
    let rank := resolveRank severity
    if rank > acc.highestRank then
      { highest := severity, highestRank := rank, active := acc.active + 1 }
    else
      { acc with active := acc.active + 1 }
  else acc

/-- Initial loop state of `highestSeverity`:
`highest = "ok"`, `highestRank = severityRank["ok"] = 0`, `active = 0`. -/
def initState : LoopState :=
  { highest := "ok", highestRank := 0, active := 0 }

/-- The function `highestSeverity` of `main.go`: fold the loop body over
the alerts and return the upper-cased best severity with the active
count. -/
def highestSeverity (alerts : List Alert) : String × Nat :=
  let final := alerts.foldl step initState
  (goToUpper final.highest, final.active)

/-- The `mqttMessage` struct of `main.go` (JSON fields `state`,
`active_alerts`, `source`). -/
structure MqttMessage where
  state : String
  activeAlerts : Nat
  source : String
deriving DecidableEq, Repr

/-- The `json.Marshal` encoding of an `mqttMessage` in declared field
order.  The state and source strings the program produces contain no
characters needing JSON escaping, so plain quoting is the exact Go
output; marshalling this struct never fails in Go, so the encoding is
total. -/
def encodeMessage (m : MqttMessage) : String :=
  "\x7b\"state\":\"" ++ m.state ++ "\",\"active_alerts\":" ++
    toString m.activeAlerts ++ ",\"source\":\"" ++ m.source ++ "\"\x7d"

/-- One publish request handed to the MQTT client: topic, QoS level,
retained flag and payload, mirroring the argument list of
`client.Publish(topic, 1, true, payload)`. -/
structure PublishCall where
  topic : String
  qos : Nat
  retained : Bool
  payload : String
deriving DecidableEq, Repr

/-- The transport collaborator: the `mqtt.Client`'s publish operation,
abstracted as a function from the publish arguments to an
acknowledged-or-failed outcome (`token.Wait(); token.Error()`). -/
structure Transport where
  pub : String → Nat → Bool → String → Except String Unit

/-- The function `publishState` of `main.go`: build the message with the
fixed source `"alertmanager"`, marshal it, issue exactly one publish at
QoS 1 with retain set, and return the transport's outcome unchanged.
The list of issued publish calls is returned alongside so that the
number of transport interactions is part of the model. -/
def publishState (client : Transport) (topic state : String) (active : Nat) :
    Except String Unit × List PublishCall :=
  let message : MqttMessage :=
    { state := state, activeAlerts := active, source := "alertmanager" }
  let payload := encodeMessage message
  let call : PublishCall :=
    { topic := topic, qos := 1, retained := true, payload := payload }
  match client.pub topic 1 true payload with
  | Except.error e => (Except.error e, [call])
  | Except.ok _ => (Except.ok (), [call])

/-! Specification-side definitions, for comparison with the code. -/

/-- An alert counts as active exactly when its status is the case-sensitive
literal `"firing"`. -/
def isFiring (a : Alert) : Bool := a.status == "firing"

/-- The firing sub-sequence of the input. -/
def firingAlerts (alerts : List Alert) : List Alert := alerts.filter isFiring

/-- Number of firing alerts, as the spec defines `activeCount`. -/
def firingCount (alerts : List Alert) : Nat := (firingAlerts alerts).length

/-- The rank one alert contributes to the aggregate. -/
def alertRank (a : Alert) : Nat := resolveRank (resolveSeverity a)

/-- Maximum resolved rank over the firing alerts, starting from the rank
of `"ok"`. -/
def maxFiringRank (alerts : List Alert) : Nat :=
  (firingAlerts alerts).foldl (fun m a => max m (alertRank a)) 0

/-- The rank of the aggregate state the reducer ends with. -/
def stateRank (alerts : List Alert) : Nat :=
  (alerts.foldl step initState).highestRank

/-- The five severity tokens `severityRank` knows. -/
def knownTokens : List String := ["ok", "info", "warning", "error", "critical"]

/-- The five upper-case state tokens of the spec's enumeration. -/
def stateTokens : List String := ["OK", "INFO", "WARNING", "ERROR", "CRITICAL"]

/-- The known lower-case token of a given rank. -/
def tokenOfRank (r : Nat) : String :=
  if r = 0 then "ok"
  else if r = 1 then "info"
  else if r = 2 then "warning"
  else if r = 3 then "error"
  else "critical"

/-! Helper lemmas about the ASCII case mapping. -/

theorem toNat_ofNat_valid (n : Nat) (h : n.isValidChar) :
    (Char.ofNat n).toNat = n := by
  rw [Char.ofNat, dif_pos h]
  rfl

theorem char_eq_of_toNat_eq {c d : Char} (h : c.toNat = d.toNat) : c = d :=
  Char.ext (UInt32.ext h)

/-- Definitional unfolding of `Char.toLower` with its `let` reduced. -/
theorem toLower_eq (c : Char) :
    Char.toLower c =
      if c.toNat ≥ 65 ∧ c.toNat ≤ 90 then Char.ofNat (c.toNat + 32) else c :=
  rfl

/-- Definitional unfolding of `Char.toUpper` with its `let` reduced. -/
theorem toUpper_eq (c : Char) :
    Char.toUpper c =
      if c.toNat ≥ 97 ∧ c.toNat ≤ 122 then Char.ofNat (c.toNat - 32) else c :=
  rfl

/-- Lower-casing never yields an upper-case ASCII letter. -/
theorem toLower_not_upper (c : Char) :
    ¬(65 ≤ (Char.toLower c).toNat ∧ (Char.toLower c).toNat ≤ 90) := by
  rw [toLower_eq]
  split
  · next h => rw [toNat_ofNat_valid _ (Or.inl (by omega))]; omega
  · next h => omega

/-- If upper-casing a character that is not an upper-case ASCII letter
yields an upper-case ASCII letter, the character was the corresponding
lower-case letter. -/
theorem toUpper_eq_upper (c u : Char) (hu : 65 ≤ u.toNat ∧ u.toNat ≤ 90)
    (hc : ¬(65 ≤ c.toNat ∧ c.toNat ≤ 90)) (h : Char.toUpper c = u) :
    c.toNat = u.toNat + 32 := by
  rw [toUpper_eq] at h
  split at h
  · next hr =>
    have h' := congrArg Char.toNat h
    rw [toNat_ofNat_valid _ (Or.inl (by omega))] at h'
    omega
  · next hr => subst h; exact absurd hu hc

/-- A string with no upper-case ASCII letters whose upper-casing is `"OK"`
must be `"ok"`. -/
theorem goToUpper_eq_OK {s : String}
    (hs : ∀ c ∈ s.data, ¬(65 ≤ c.toNat ∧ c.toNat ≤ 90))
    (h : goToUpper s = "OK") : s = "ok" := by
  obtain ⟨l⟩ := s
  have hd : l.map Char.toUpper = ['O', 'K'] := by
    have h2 := congrArg String.data h
    simpa [goToUpper] using h2
  simp only [String.data] at hs
  cases l with
  | nil => simp at hd
  | cons c1 t =>
    cases t with
    | nil => simp at hd
    | cons c2 t2 =>
      cases t2 with
      | cons c3 t3 => simp at hd
      | nil =>
        simp only [List.map_cons, List.map_nil, List.cons.injEq, and_true] at hd
        have e1 : c1 = 'o' := by
          have hn := toUpper_eq_upper c1 'O' (by decide)
            (hs c1 (by simp)) hd.1
          exact char_eq_of_toNat_eq (by rw [hn]; decide)
        have e2 : c2 = 'k' := by
          have hn := toUpper_eq_upper c2 'K' (by decide)
            (hs c2 (by simp)) hd.2
          exact char_eq_of_toNat_eq (by rw [hn]; decide)
        subst e1; subst e2; decide

/-- The severity string resolved for any alert contains no upper-case
ASCII letter: it is either the literal `"info"` or a lower-cased string. -/
theorem resolveSeverity_no_upper (a : Alert) :
    ∀ c ∈ (resolveSeverity a).data, ¬(65 ≤ c.toNat ∧ c.toNat ≤ 90) := by
  have hinfo : ∀ c ∈ ("info" : String).data, ¬(65 ≤ c.toNat ∧ c.toNat ≤ 90) := by
    decide
  rcases a with ⟨st, labels⟩
  cases labels with
  | none => exact hinfo
  | some ls =>
    simp only [resolveSeverity]
    split
    · exact hinfo
    · intro c hc
      simp only [goToLower, String.data, List.mem_map] at hc
      obtain ⟨c', -, rfl⟩ := hc
      exact toLower_not_upper c'

/-! Helper lemmas about the reducer loop. -/

theorem isFiring_iff (a : Alert) : isFiring a = true ↔ a.status = "firing" := by
  simp [isFiring]

theorem step_not_firing (acc : LoopState) (a : Alert) (h : isFiring a = false) :
    step acc a = acc := by
  have h' : ¬ a.status = "firing" := by simpa [isFiring] using h
  simp [step, h']

theorem step_firing (acc : LoopState) (a : Alert) (h : isFiring a = true) :
    step acc a =
      { highest :=
          if acc.highestRank < alertRank a then resolveSeverity a
          else acc.highest,
        highestRank := max acc.highestRank (alertRank a),
        active := acc.active + 1 } := by
  have h' : a.status = "firing" := (isFiring_iff a).mp h
  unfold step
  rw [if_pos h']
  by_cases hlt : resolveRank (resolveSeverity a) > acc.highestRank
  · simp only [if_pos hlt, alertRank, LoopState.mk.injEq, true_and, and_true]
    omega
  · simp only [if_neg hlt, alertRank, LoopState.mk.injEq, true_and, and_true]
    omega

theorem foldl_step_active (l : List Alert) :
    ∀ acc : LoopState, (l.foldl step acc).active = acc.active + firingCount l := by
  induction l with
  | nil => intro acc; simp [firingCount, firingAlerts]
  | cons a t ih =>
    intro acc
    rw [List.foldl_cons, ih]
    cases hf : isFiring a with
    | false =>
      rw [step_not_firing acc a hf]
      simp [firingCount, firingAlerts, List.filter_cons, hf]
    | true =>
      rw [step_firing acc a hf]
      simp only [firingCount, firingAlerts, List.filter_cons, hf, if_true,
        List.length_cons]
      omega

theorem foldl_step_rank (l : List Alert) :
    ∀ acc : LoopState,
      (l.foldl step acc).highestRank =
        (firingAlerts l).foldl (fun m a => max m (alertRank a))
          acc.highestRank := by
  induction l with
  | nil => intro acc; simp [firingAlerts]
  | cons a t ih =>
    intro acc
    rw [List.foldl_cons, ih]
    cases hf : isFiring a with
    | false =>
      rw [step_not_firing acc a hf]
      simp [firingAlerts, List.filter_cons, hf]
    | true =>
      rw [step_firing acc a hf]
      simp [firingAlerts, List.filter_cons, hf]

theorem foldl_step_highest_rank (l : List Alert) :
    ∀ acc : LoopState, resolveRank acc.highest = acc.highestRank →
      resolveRank ((l.foldl step acc).highest) =
        (l.foldl step acc).highestRank := by
  induction l with
  | nil => intro acc h; simpa using h
  | cons a t ih =>
    intro acc h
    rw [List.foldl_cons]
    apply ih
    cases hf : isFiring a with
    | false => rw [step_not_firing acc a hf]; exact h
    | true =>
      rw [step_firing acc a hf]
      by_cases hlt : acc.highestRank < alertRank a
      · show resolveRank (if acc.highestRank < alertRank a then resolveSeverity a else acc.highest) = max acc.highestRank (alertRank a)
        rw [if_pos hlt, Nat.max_eq_right (Nat.le_of_lt hlt)]
        rfl
      · show resolveRank (if acc.highestRank < alertRank a then resolveSeverity a else acc.highest) = max acc.highestRank (alertRank a)
        rw [if_neg hlt, Nat.max_eq_left (Nat.not_lt.mp hlt)]
        exact h

theorem foldl_step_highest_mem (l : List Alert) :
    ∀ acc : LoopState,
      (l.foldl step acc).highest = acc.highest ∨
        ∃ a ∈ l, isFiring a = true ∧
          (l.foldl step acc).highest = resolveSeverity a := by
  induction l with
  | nil => intro acc; left; rfl
  | cons a t ih =>
    intro acc
    rw [List.foldl_cons]
    rcases ih (step acc a) with h | ⟨b, hb, hfb, hb2⟩
    · rw [h]
      cases hf : isFiring a with
      | false => rw [step_not_firing acc a hf]; left; rfl
      | true =>
        rw [step_firing acc a hf]
        by_cases hlt : acc.highestRank < alertRank a
        · right
          exact ⟨a, List.mem_cons_self a t, hf, by simp [hlt]⟩
        · left; simp [hlt]
    · right
      exact ⟨b, List.mem_cons_of_mem a hb, hfb, hb2⟩

theorem foldl_step_filter (l : List Alert) :
    ∀ acc : LoopState,
      l.foldl step acc = (firingAlerts l).foldl step acc := by
  induction l with
  | nil => intro acc; rfl
  | cons a t ih =>
    intro acc
    rw [List.foldl_cons]
    cases hf : isFiring a with
    | false =>
      rw [step_not_firing acc a hf, ih]
      simp [firingAlerts, List.filter_cons, hf]
    | true =>
      rw [ih]
      simp [firingAlerts, List.filter_cons, hf]

theorem le_foldl_max (l : List Alert) :
    ∀ r : Nat, r ≤ l.foldl (fun m a => max m (alertRank a)) r := by
  induction l with
  | nil => intro r; exact Nat.le_refl r
  | cons a t ih =>
    intro r
    rw [List.foldl_cons]
    exact Nat.le_trans (Nat.le_max_left r (alertRank a)) (ih _)

theorem mem_le_foldl_max (l : List Alert) (a : Alert) (ha : a ∈ l) :
    ∀ r : Nat, alertRank a ≤ l.foldl (fun m b => max m (alertRank b)) r := by
  induction l with
  | nil => cases ha
  | cons b t ih =>
    intro r
    rw [List.foldl_cons]
    rcases List.mem_cons.mp ha with rfl | ha'
    · exact Nat.le_trans (Nat.le_max_right r (alertRank a)) (le_foldl_max t _)
    · exact ih ha' _

theorem resolveRank_eq_zero_iff (s : String) : resolveRank s = 0 ↔ s = "ok" := by
  unfold resolveRank severityRank?
  split_ifs with h1 h2 h3 h4 h5 <;> simp_all

theorem foldl_step_known (l : List Alert) :
    ∀ acc : LoopState, acc.highest ∈ knownTokens →
      (∀ a ∈ l, isFiring a = true → resolveSeverity a ∈ knownTokens) →
      (l.foldl step acc).highest ∈ knownTokens := by
  induction l with
  | nil => intro acc hacc _; exact hacc
  | cons a t ih =>
    intro acc hacc h
    rw [List.foldl_cons]
    apply ih
    · cases hf : isFiring a with
      | false => rw [step_not_firing acc a hf]; exact hacc
      | true =>
        rw [step_firing acc a hf]
        by_cases hlt : acc.highestRank < alertRank a
        · simpa [hlt] using h a (List.mem_cons_self a t) hf
        · simpa [hlt] using hacc
    · intro b hb hfb
      exact h b (List.mem_cons_of_mem a hb) hfb

theorem tokenOfRank_of_known {s : String} (hs : s ∈ knownTokens) :
    tokenOfRank (resolveRank s) = s := by
  simp only [knownTokens, List.mem_cons, List.not_mem_nil, or_false] at hs
  rcases hs with rfl | rfl | rfl | rfl | rfl <;> decide

/-- Under all-known firing severities the final state is determined by the
final rank alone. -/
theorem state_eq_tokenOfRank (alerts : List Alert)
    (h : ∀ a ∈ alerts, isFiring a = true → resolveSeverity a ∈ knownTokens) :
    (highestSeverity alerts).1 = goToUpper (tokenOfRank (stateRank alerts)) := by
  have hk : (alerts.foldl step initState).highest ∈ knownTokens :=
    foldl_step_known alerts initState (by decide) h
  have hr : resolveRank ((alerts.foldl step initState).highest) =
      (alerts.foldl step initState).highestRank :=
    foldl_step_highest_rank alerts initState (by decide)
  have key : tokenOfRank (stateRank alerts) =
      (alerts.foldl step initState).highest := by
    rw [stateRank, ← hr]
    exact tokenOfRank_of_known hk
  show goToUpper ((alerts.foldl step initState).highest) = _
  rw [key]

theorem stateRank_eq_maxFiringRank (alerts : List Alert) :
    stateRank alerts = maxFiringRank alerts := by
  rw [stateRank, maxFiringRank, foldl_step_rank]
  rfl

theorem activeCount_eq (alerts : List Alert) :
    (highestSeverity alerts).2 = firingCount alerts := by
  show (alerts.foldl step initState).active = _
  rw [foldl_step_active]
  simp [initState]

theorem firingCount_perm {l₁ l₂ : List Alert} (h : List.Perm l₁ l₂) :
    firingCount l₁ = firingCount l₂ := by
  unfold firingCount firingAlerts
  exact (h.filter isFiring).length_eq

theorem stateRank_perm {l₁ l₂ : List Alert} (h : List.Perm l₁ l₂) :
    stateRank l₁ = stateRank l₂ := by
  rw [stateRank_eq_maxFiringRank, stateRank_eq_maxFiringRank]
  unfold maxFiringRank firingAlerts
  exact (h.filter isFiring).foldl_eq'
    (fun x _ y _ z => by
      show max (max z (alertRank x)) (alertRank y) =
        max (max z (alertRank y)) (alertRank x)
      omega) 0

/-- Evaluation of the reducer on a single firing alert. -/
theorem highestSeverity_singleton_firing (a : Alert) (hf : isFiring a = true) :
    highestSeverity [a] =
      (goToUpper (if 0 < alertRank a then resolveSeverity a else "ok"), 1) := by
  show (goToUpper (List.foldl step initState [a]).highest,
    (List.foldl step initState [a]).active) = _
  rw [List.foldl_cons, List.foldl_nil, step_firing initState a hf]
  rfl

/-! Remaining helper lemmas bounding ranks. -/

theorem resolveRank_le (s : String) : resolveRank s ≤ 4 := by
  unfold resolveRank severityRank?
  split_ifs <;> decide

theorem foldl_max_le (l : List Alert) :
    ∀ r : Nat, r ≤ 4 → l.foldl (fun m a => max m (alertRank a)) r ≤ 4 := by
  induction l with
  | nil => intro r hr; exact hr
  | cons a t ih =>
    intro r hr
    rw [List.foldl_cons]
    exact ih _ (Nat.max_le.mpr ⟨hr, resolveRank_le _⟩)

theorem tokenOfRank_mem (r : Nat) : tokenOfRank r ∈ knownTokens := by
  unfold tokenOfRank
  split_ifs <;> decide

theorem goToUpper_known_mem {s : String} (hs : s ∈ knownTokens) :
    goToUpper s ∈ stateTokens := by
  simp only [knownTokens, List.mem_cons, List.not_mem_nil, or_false] at hs
  rcases hs with rfl | rfl | rfl | rfl | rfl <;> decide

/-! Claim theorems. -/

/-- C3: for every input alert sequence, the reducer's activeCount equals
exactly the number of records whose status field is the case-sensitive
literal "firing", regardless of those records' severity labels. -/
theorem c3_activeCount_counts_firing (alerts : List Alert) :
    (highestSeverity alerts).2 =
      (alerts.filter (fun a => a.status == "firing")).length := by
  rw [activeCount_eq]
  rfl

/-- C10: non-firing records are completely inert: the reducer's output on
any input equals its output on the subsequence of records whose status is
exactly "firing". -/
theorem c10_non_firing_inert (alerts : List Alert) :
    highestSeverity alerts =
      highestSeverity (alerts.filter (fun a => a.status == "firing")) := by
  show (goToUpper (alerts.foldl step initState).highest,
      (alerts.foldl step initState).active) = _
  rw [foldl_step_filter]
  rfl

/-- C1 is false on the code: on the single-alert input with status
"firing" and severity label "ok" the reducer yields state "OK" although
the sequence contains one firing alert, refuting "state is OK iff zero
firing alerts" and "a firing alert guarantees INFO or higher". -/
theorem c1_cex :
    ¬ (((highestSeverity [⟨"firing", some [("severity", "ok")]⟩]).1 = "OK") ↔
      firingCount [⟨"firing", some [("severity", "ok")]⟩] = 0) := by
  decide

/-- C1 amended: the reducer's state is "OK" iff every firing alert's
resolved severity is the token "ok" (the severity table ranks "ok" at 0,
so a firing alert labelled "ok" keeps the state at "OK"); in particular
the empty sequence and any sequence without firing alerts yield state
"OK" with activeCount 0. -/
theorem c1_state_ok_iff (alerts : List Alert) :
    ((highestSeverity alerts).1 = "OK" ↔
      ∀ a ∈ alerts, isFiring a = true → resolveSeverity a = "ok") ∧
    ((∀ a ∈ alerts, isFiring a = false) →
      highestSeverity alerts = ("OK", 0)) := by
  have hfin : (highestSeverity alerts).1 =
      goToUpper ((alerts.foldl step initState).highest) := rfl
  constructor
  · constructor
    · intro hok a ha hf
      by_contra hne
      have h0 : alertRank a ≠ 0 :=
        fun h0 => hne ((resolveRank_eq_zero_iff _).mp h0)
      have hmem : a ∈ firingAlerts alerts := List.mem_filter.mpr ⟨ha, hf⟩
      have hle : alertRank a ≤ maxFiringRank alerts :=
        mem_le_foldl_max _ a hmem 0
      have hsr : 1 ≤ stateRank alerts := by
        rw [stateRank_eq_maxFiringRank]; omega
      have hr : resolveRank ((alerts.foldl step initState).highest) =
          stateRank alerts :=
        foldl_step_highest_rank alerts initState (by decide)
      have hho : (alerts.foldl step initState).highest ≠ "ok" := by
        intro he
        rw [he] at hr
        have hz : resolveRank "ok" = 0 := by decide
        omega
      rcases foldl_step_highest_mem alerts initState with hcase | ⟨b, _, _, heq⟩
      · exact hho hcase
      · have hnu : ∀ c ∈ ((alerts.foldl step initState).highest).data,
            ¬(65 ≤ c.toNat ∧ c.toNat ≤ 90) := by
          rw [heq]; exact resolveSeverity_no_upper b
        exact hho (goToUpper_eq_OK hnu (by rw [← hfin]; exact hok))
    · intro hall
      rcases foldl_step_highest_mem alerts initState with hcase | ⟨b, hb, hfb, heq⟩
      · rw [hfin, hcase]; decide
      · rw [hfin, heq, hall b hb hfb]; decide
  · intro hnone
    have hnil : firingAlerts alerts = [] := by
      unfold firingAlerts
      rw [List.filter_eq_nil_iff]
      intro a ha
      simp [hnone a ha]
    have hid : alerts.foldl step initState = initState := by
      rw [foldl_step_filter, hnil, List.foldl_nil]
    show (goToUpper (alerts.foldl step initState).highest,
      (alerts.foldl step initState).active) = _
    rw [hid]
    decide

/-- Witness for the amended C1 at a concrete input: one resolved alert
yields state "OK". -/
theorem c1_witness :
    (highestSeverity [⟨"resolved", some [("severity", "critical")]⟩]).1 =
      "OK" :=
  ((c1_state_ok_iff [⟨"resolved", some [("severity", "critical")]⟩]).1).mpr
    (by decide)

/-- C2 is false on the code: a firing alert with the unrecognized
severity "bogus" makes the reducer return the state "BOGUS", which is
outside the five-token enumeration (the fallback to info applies only to
the rank, not to the stored severity string). -/
theorem c2_cex :
    (highestSeverity [⟨"firing", some [("severity", "bogus")]⟩]).1 =
      "BOGUS" ∧
    "BOGUS" ∉ stateTokens := by
  decide

/-- C2 amended: the rank of the aggregate state never exceeds 4, and the
state is one of the five enumerated tokens whenever every firing alert's
resolved severity is one of the five known tokens (absent or empty labels
resolve to "info" and so are covered); an unrecognized severity string
still contributes only the info rank and never an error, but it becomes
the state verbatim (upper-cased), outside the enumeration. -/
theorem c2_state_enum (alerts : List Alert) :
    stateRank alerts ≤ 4 ∧
    ((∀ a ∈ alerts, isFiring a = true → resolveSeverity a ∈ knownTokens) →
      (highestSeverity alerts).1 ∈ stateTokens) := by
  constructor
  · rw [stateRank_eq_maxFiringRank]
    exact foldl_max_le _ 0 (by omega)
  · intro h
    rw [state_eq_tokenOfRank alerts h]
    exact goToUpper_known_mem (tokenOfRank_mem _)

/-- Witness for the amended C2 at a concrete input with known tokens. -/
theorem c2_witness :
    (highestSeverity [⟨"firing", some [("severity", "warning")]⟩]).1 ∈
      stateTokens :=
  (c2_state_enum [⟨"firing", some [("severity", "warning")]⟩]).2 (by decide)

/-- C4: severity values are trimmed and lower-cased before rank lookup,
so any spelling of "critical" contributes rank critical; the state's rank
is the maximum resolved rank over firing alerts; and the mixed batch of a
firing warning, a firing critical (in any spelling) and a resolved
critical yields state "CRITICAL" with activeCount 2. -/
theorem c4_normalization_and_max :
    (∀ alerts : List Alert, stateRank alerts = maxFiringRank alerts) ∧
    ∀ s : String, goToLower (goTrimSpace s) = "critical" →
      highestSeverity [⟨"firing", some [("severity", s)]⟩] =
        ("CRITICAL", 1) ∧
      highestSeverity [⟨"firing", some [("severity", "warning")]⟩,
        ⟨"firing", some [("severity", s)]⟩,
        ⟨"resolved", some [("severity", "critical")]⟩] = ("CRITICAL", 2) := by
  refine ⟨fun alerts => stateRank_eq_maxFiringRank alerts, ?_⟩
  intro s hs
  have hl : lookupLabel [("severity", s)] "severity" = s := rfl
  have hsev : resolveSeverity ⟨"firing", some [("severity", s)]⟩ =
      "critical" := by
    simp only [resolveSeverity, hl, hs]
    decide
  constructor
  · rw [highestSeverity_singleton_firing _ (by rfl)]
    simp only [alertRank, hsev]
    decide
  · have hs1 : step initState ⟨"firing", some [("severity", "warning")]⟩ =
        ⟨"warning", 2, 1⟩ := by decide
    have hs2 : step ⟨"warning", 2, 1⟩ ⟨"firing", some [("severity", s)]⟩ =
        ⟨"critical", 4, 2⟩ := by
      rw [step_firing _ _ (by rfl)]
      simp only [alertRank, hsev]
      decide
    have hs3 : step ⟨"critical", 4, 2⟩
        ⟨"resolved", some [("severity", "critical")]⟩ =
        ⟨"critical", 4, 2⟩ := by decide
    show (goToUpper (List.foldl step initState _).highest,
      (List.foldl step initState _).active) = _
    rw [List.foldl_cons, hs1, List.foldl_cons, hs2, List.foldl_cons, hs3,
      List.foldl_nil]
    decide

/-- Witness for C4 at the concrete severity spelling "  CRITICAL	". -/
theorem c4_witness :
    highestSeverity [⟨"firing", some [("severity", "  CRITICAL\t")]⟩] =
      ("CRITICAL", 1) :=
  (c4_normalization_and_max.2 "  CRITICAL\t" (by decide)).1

/-- C5: a firing alert with an absent labels map, or whose severity label
is absent or empty after trimming, resolves to the default info; a single
such firing alert yields state "INFO" with activeCount 1. -/
theorem c5_missing_severity_info :
    highestSeverity [⟨"firing", none⟩] = ("INFO", 1) ∧
    ∀ ls : List (String × String),
      goToLower (goTrimSpace (lookupLabel ls "severity")) = "" →
        highestSeverity [⟨"firing", some ls⟩] = ("INFO", 1) := by
  constructor
  · decide
  · intro ls h
    have hsev : resolveSeverity ⟨"firing", some ls⟩ = "info" := by
      simp only [resolveSeverity, h]
      decide
    rw [highestSeverity_singleton_firing _ (by rfl)]
    simp only [alertRank, hsev]
    decide

/-- Witness for C5 at a concrete whitespace-only severity label. -/
theorem c5_witness :
    highestSeverity [⟨"firing", some [("severity", "   ")]⟩] =
      ("INFO", 1) :=
  c5_missing_severity_info.2 [("severity", "   ")] (by decide)

/-- C6 is false on the code: a single firing alert with severity "bogus"
yields ("BOGUS", 1) while a single firing alert with severity "info"
yields ("INFO", 1), so the two reducer outputs differ (only the rank
falls back to info, the state string does not). -/
theorem c6_cex :
    highestSeverity [⟨"firing", some [("severity", "bogus")]⟩] =
      ("BOGUS", 1) ∧
    highestSeverity [⟨"firing", some [("severity", "info")]⟩] =
      ("INFO", 1) ∧
    (("BOGUS", 1) : String × Nat) ≠ ("INFO", 1) := by
  decide

/-- C6 amended: a firing alert whose normalized severity matches none of
the five known tokens contributes the info rank and never causes an
error, and a single such firing alert yields the same activeCount and the
same severity rank as severity "info"; its state, however, is the
upper-cased unknown token itself rather than "INFO". -/
theorem c6_unknown_severity (s : String)
    (h1 : severityRank? (goToLower (goTrimSpace s)) = none)
    (h2 : goToLower (goTrimSpace s) ≠ "") :
    highestSeverity [⟨"firing", some [("severity", s)]⟩] =
      (goToUpper (goToLower (goTrimSpace s)), 1) ∧
    alertRank ⟨"firing", some [("severity", s)]⟩ =
      alertRank ⟨"firing", some [("severity", "info")]⟩ ∧
    (highestSeverity [⟨"firing", some [("severity", s)]⟩]).2 =
      (highestSeverity [⟨"firing", some [("severity", "info")]⟩]).2 := by
  have hl : lookupLabel [("severity", s)] "severity" = s := rfl
  have hsev : resolveSeverity ⟨"firing", some [("severity", s)]⟩ =
      goToLower (goTrimSpace s) := by
    simp only [resolveSeverity, hl, if_neg h2]
  have hrank : resolveRank (goToLower (goTrimSpace s)) = 1 := by
    unfold resolveRank
    rw [h1]
  have hmain : highestSeverity [⟨"firing", some [("severity", s)]⟩] =
      (goToUpper (goToLower (goTrimSpace s)), 1) := by
    rw [highestSeverity_singleton_firing _ (by rfl)]
    simp only [alertRank, hsev, hrank]
    rw [if_pos (by omega : (0 : Nat) < 1)]
  refine ⟨hmain, ?_, ?_⟩
  · simp only [alertRank, hsev, hrank]
    decide
  · rw [hmain]
    rfl

/-- Witness for the amended C6 at the concrete severity "bogus". -/
theorem c6_witness :
    highestSeverity [⟨"firing", some [("severity", "bogus")]⟩] =
      (goToUpper (goToLower (goTrimSpace "bogus")), 1) :=
  (c6_unknown_severity "bogus" (by decide) (by decide)).1

/-- C7 is false on the code: swapping two firing alerts with severities
"bogus" and "info" (both of rank 1) changes the state from "BOGUS" to
"INFO", so the full reducer output is not permutation-invariant. -/
theorem c7_cex :
    List.Perm
      [(⟨"firing", some [("severity", "bogus")]⟩ : Alert),
        ⟨"firing", some [("severity", "info")]⟩]
      [⟨"firing", some [("severity", "info")]⟩,
        ⟨"firing", some [("severity", "bogus")]⟩] ∧
    highestSeverity
        [⟨"firing", some [("severity", "bogus")]⟩,
          ⟨"firing", some [("severity", "info")]⟩] ≠
      highestSeverity
        [⟨"firing", some [("severity", "info")]⟩,
          ⟨"firing", some [("severity", "bogus")]⟩] := by
  constructor
  · exact List.Perm.swap _ _ _
  · decide

/-- C7 amended: under any permutation of the input the activeCount and
the rank of the state are unchanged, and the full reducer output
(including the state string) is unchanged provided every firing alert's
resolved severity is one of the five known tokens; only unknown severity
strings (which tie at the info rank) make the state order-dependent. -/
theorem c7_perm (l₁ l₂ : List Alert) (h : List.Perm l₁ l₂) :
    (highestSeverity l₁).2 = (highestSeverity l₂).2 ∧
    stateRank l₁ = stateRank l₂ ∧
    ((∀ a ∈ l₁, isFiring a = true → resolveSeverity a ∈ knownTokens) →
      highestSeverity l₁ = highestSeverity l₂) := by
  have hcount : (highestSeverity l₁).2 = (highestSeverity l₂).2 := by
    rw [activeCount_eq, activeCount_eq]
    exact firingCount_perm h
  refine ⟨hcount, stateRank_perm h, ?_⟩
  intro hk
  have hk2 : ∀ a ∈ l₂, isFiring a = true → resolveSeverity a ∈ knownTokens :=
    fun a ha => hk a (h.mem_iff.mpr ha)
  have hstate : (highestSeverity l₁).1 = (highestSeverity l₂).1 := by
    rw [state_eq_tokenOfRank l₁ hk, state_eq_tokenOfRank l₂ hk2,
      stateRank_perm h]
  exact Prod.ext hstate hcount

/-- Witness for the amended C7 on a concrete two-element swap. -/
theorem c7_witness :
    highestSeverity [(⟨"resolved", none⟩ : Alert),
        ⟨"firing", some [("severity", "critical")]⟩] =
      highestSeverity [⟨"firing", some [("severity", "critical")]⟩,
        ⟨"resolved", none⟩] :=
  (c7_perm _ _ (List.Perm.swap _ _ _)).2.2 (by decide)

/-- C8: for every aggregate result the publisher hands the transport
exactly one publish call whose payload is the JSON encoding of the
message with state and active_alerts equal to the reducer's output and
source fixed to "alertmanager", at QoS 1 with the retained flag set; and
when the transport reports success the overall result is success. -/
theorem c8_publish (t : Transport) (topic : String) (alerts : List Alert) :
    (publishState t topic (highestSeverity alerts).1
        (highestSeverity alerts).2).2 =
      [{ topic := topic, qos := 1, retained := true,
         payload := encodeMessage
           { state := (highestSeverity alerts).1,
             activeAlerts := (highestSeverity alerts).2,
             source := "alertmanager" } }] ∧
    (t.pub topic 1 true (encodeMessage
        { state := (highestSeverity alerts).1,
          activeAlerts := (highestSeverity alerts).2,
          source := "alertmanager" }) = Except.ok () →
      (publishState t topic (highestSeverity alerts).1
          (highestSeverity alerts).2).1 = Except.ok ()) := by
  constructor
  · simp only [publishState]
    split <;> rfl
  · intro h
    simp only [publishState]
    rw [h]

/-- Witness for C8 with an always-acknowledging transport. -/
theorem c8_witness :
    (publishState ⟨fun _ _ _ _ => Except.ok ()⟩ "homelab/health"
        (highestSeverity []).1 (highestSeverity []).2).1 = Except.ok () :=
  (c8_publish ⟨fun _ _ _ _ => Except.ok ()⟩ "homelab/health" []).2 rfl

/-- C9: when the transport reports failure, the publisher returns that
error to its caller and has issued exactly one publish call: no retry and
no suppression. -/
theorem c9_failure (t : Transport) (topic state : String) (active : Nat)
    (e : String)
    (h : t.pub topic 1 true (encodeMessage
        { state := state, activeAlerts := active,
          source := "alertmanager" }) = Except.error e) :
    (publishState t topic state active).1 = Except.error e ∧
    (publishState t topic state active).2.length = 1 := by
  simp only [publishState]
  rw [h]
  exact ⟨rfl, rfl⟩

/-- Witness for C9 with a transport that always rejects. -/
theorem c9_witness :
    (publishState ⟨fun _ _ _ _ => Except.error "not connected"⟩
        "homelab/health" "OK" 0).1 = Except.error "not connected" ∧
    (publishState ⟨fun _ _ _ _ => Except.error "not connected"⟩
        "homelab/health" "OK" 0).2.length = 1 :=
  c9_failure ⟨fun _ _ _ _ => Except.error "not connected"⟩
    "homelab/health" "OK" 0 "not connected" rfl
